import Mathlib

/-!
# SirHiss signal-generation and position-tracking engine: verification

A shallow embedding of the core of the SirHiss trading platform
(`backend/app/services/trading_strategies.py`,
`backend/app/services/advanced_trading_strategies.py`,
`backend/app/services/enhanced_trading_engine.py`) together with proofs
about its behaviour.

Python floats are modelled by `ℚ`; the two places where the source takes a
square root (`statistics.stdev`, `variance ** 0.5`) are abstracted as
explicit inputs, as noted on the definitions that need them.
-/

namespace SirHiss

/-- Direction of a trading signal (`SignalType` enum in
`trading_strategies.py`). -/
inductive SignalType
  | buy
  | sell
  | hold
deriving DecidableEq, Repr

/-- A value stored in a signal's `metadata` dictionary (the source stores
strings, numbers and booleans there). -/
inductive MetaVal
  | str (v : String)
  | num (v : ℚ)
  | flag (v : Bool)
deriving DecidableEq, Repr

/-- `TradingSignal` dataclass from `trading_strategies.py`. -/
structure TradingSignal where
  symbol : String
  strategy_name : String
  signal : SignalType
  strength : ℚ
  price : ℚ
  timestamp : ℚ
  metadata : List (String × MetaVal)
deriving DecidableEq, Repr

/-! ## TechnicalAnalyzer (the indicator library) -/

/-- Python's slice `l[-n:]` for `1 ≤ n ≤ l.length`: the last `n` elements. -/
def lastN (n : ℕ) (l : List ℚ) : List ℚ :=
  l.drop (l.length - n)

/-- `TechnicalAnalyzer.calculate_sma`: Simple Moving Average.  Returns the
sentinel `0.0` when fewer than `period` prices are available. -/
def calculate_sma (prices : List ℚ) (period : ℕ) : ℚ :=
  if prices.length < period then 0
  else (lastN period prices).sum / period

/-- `TechnicalAnalyzer.calculate_ema`: Exponential Moving Average with
smoothing factor `2/(period+1)`, seeded with the first price.  Returns the
sentinel `prices[-1] if prices else 0.0` when fewer than `period` prices
are available. -/
def calculate_ema (prices : List ℚ) (period : ℕ) : ℚ :=
  if prices.length < period then prices.getLast?.getD 0
  else
    match prices with
    | [] => 0
    | p :: ps =>
        ps.foldl
          (fun ema price =>
            price * (2 / ((period : ℚ) + 1)) + ema * (1 - 2 / ((period : ℚ) + 1)))
          p

/-- The consecutive price changes `prices[i] - prices[i-1]`
(the loop `for i in range(1, len(prices))` in `calculate_rsi`). -/
def priceChanges (prices : List ℚ) : List ℚ :=
  List.zipWith (fun prev next => next - prev) prices prices.tail

/-- `TechnicalAnalyzer.calculate_rsi`: Relative Strength Index.  A change
`> 0` contributes a gain of `change` and a loss of `0`; otherwise a gain of
`0` and a loss of `|change|`.  Returns the sentinel `50.0` when fewer than
`period + 1` prices are available; an average loss of `0` maps to `100.0`. -/
def calculate_rsi (prices : List ℚ) (period : ℕ) : ℚ :=
  if prices.length < period + 1 then 50
  else
    let gains := (priceChanges prices).map (fun c => if 0 < c then c else 0)
    let losses := (priceChanges prices).map (fun c => if 0 < c then 0 else |c|)
    if gains.length < period then 50
    else
      let avg_gain := (lastN period gains).sum / period
      let avg_loss := (lastN period losses).sum / period
      if avg_loss = 0 then 100
      else 100 - 100 / (1 + avg_gain / avg_loss)

/-- `TechnicalAnalyzer.calculate_bollinger_bands`
`(upper, middle, lower)`.  The source computes `std = variance ** 0.5`; the
square root is irrational in general, so it is abstracted as the input
`sqrtFn` (applied to the population variance exactly as the source applies
`** 0.5`).  Returns the sentinel `(p, p, p)` with
`p = prices[-1] if prices else 0.0` when fewer than `period` prices are
available. -/
def calculate_bollinger_bands (sqrtFn : ℚ → ℚ) (prices : List ℚ) (period : ℕ)
    (std_dev : ℚ) : ℚ × ℚ × ℚ :=
  if prices.length < period then
    let price := prices.getLast?.getD 0
    (price, price, price)
  else
    let sma := (lastN period prices).sum / period
    let variance := ((lastN period prices).map (fun p => ((p - sma) ^ 2 : ℚ))).sum / period
    let std := sqrtFn variance
    (sma + std * std_dev, sma, sma - std * std_dev)

/-- `TechnicalAnalyzer.calculate_macd` `(macd, signal, histogram)`.  The
MACD line is `EMA(fast) - EMA(slow)`; the source computes the signal line
as an EMA of the last `signalPeriod` *raw prices* (its own comment calls
this a "proxy" for the EMA of historical MACD values).  Returns the
sentinel `(0, 0, 0)` when fewer than `slow` prices are available. -/
def calculate_macd (prices : List ℚ) (fast slow signalPeriod : ℕ) : ℚ × ℚ × ℚ :=
  if prices.length < slow then (0, 0, 0)
  else
    let ema_fast := calculate_ema prices fast
    let ema_slow := calculate_ema prices slow
    let macd_line := ema_fast - ema_slow
    let signal_line := calculate_ema (lastN signalPeriod prices) signalPeriod
    let histogram := macd_line - signal_line
    (macd_line, signal_line, histogram)

/-- Modelled from the spec: the per-indicator `is_defined` flag (§4.1 says
"callers check a boolean `is_defined` flag per indicator").  The source has
no explicit flag; definedness appears there as each indicator's leading
length guard, so the flag is exactly the negation of that guard.  `lookback`
is the indicator's required lookback (`period` for SMA/EMA/Bollinger,
`period + 1` for RSI, `slow` for MACD). -/
def indicatorDefined (prices : List ℚ) (lookback : ℕ) : Bool :=
  !(prices.length < lookback)

/-! ## StrategyManager -/

/-- The BUY signals among `signals`
(`[s for s in signals if s.signal == SignalType.BUY]`). -/
def buySignals (signals : List TradingSignal) : List TradingSignal :=
  signals.filter (fun s => s.signal == SignalType.buy)

/-- The SELL signals among `signals`. -/
def sellSignals (signals : List TradingSignal) : List TradingSignal :=
  signals.filter (fun s => s.signal == SignalType.sell)

/-- `buy_weight`: the sum of `strength` over the BUY signals. -/
def buyWeight (signals : List TradingSignal) : ℚ :=
  ((buySignals signals).map TradingSignal.strength).sum

/-- `sell_weight`: the sum of `strength` over the SELL signals. -/
def sellWeight (signals : List TradingSignal) : ℚ :=
  ((sellSignals signals).map TradingSignal.strength).sum

/-- The metadata dictionary the source attaches to a combined signal. -/
def combinedMeta (signals : List TradingSignal) : List (String × MetaVal) :=
  [("buy_signals", MetaVal.num (buySignals signals).length),
   ("sell_signals", MetaVal.num (sellSignals signals).length),
   ("buy_weight", MetaVal.num (buyWeight signals)),
   ("sell_weight", MetaVal.num (sellWeight signals))]

/-- The consensus record built in the buy branch of `get_combined_signal`:
`avg_strength = buy_weight / len(buy_signals)`, capped at 1.  `s0` is
`signals[0]`. -/
def combinedBuySignal (now : ℚ) (s0 : TradingSignal)
    (signals : List TradingSignal) : TradingSignal :=
  { symbol := s0.symbol
    strategy_name := "CombinedStrategy"
    signal := SignalType.buy
    strength := min (buyWeight signals / (buySignals signals).length) 1
    price := s0.price
    timestamp := now
    metadata := combinedMeta signals }

/-- The consensus record built in the sell branch of
`get_combined_signal`. -/
def combinedSellSignal (now : ℚ) (s0 : TradingSignal)
    (signals : List TradingSignal) : TradingSignal :=
  { symbol := s0.symbol
    strategy_name := "CombinedStrategy"
    signal := SignalType.sell
    strength := min (sellWeight signals / (sellSignals signals).length) 1
    price := s0.price
    timestamp := now
    metadata := combinedMeta signals }

/-- `StrategyManager.get_combined_signal`: weighted-voting fusion of a list
of signals into an optional consensus signal.  `now` stands for the
`time.time()` timestamp the source stamps on the combined signal. -/
def get_combined_signal (now : ℚ) (signals : List TradingSignal) :
    Option TradingSignal :=
  match signals with
  | [] => none
  | s0 :: _ =>
      if sellWeight signals < buyWeight signals ∧ 1 / 2 < buyWeight signals then
        some (combinedBuySignal now s0 signals)
      else if buyWeight signals < sellWeight signals ∧
          1 / 2 < sellWeight signals then
        some (combinedSellSignal now s0 signals)
      else none

/-- The worked example of the spec: two BUY signals of strength 0.8 and
0.6 and one SELL signal of strength 0.4, all for one symbol. -/
def c1ExampleSignals : List TradingSignal :=
  [⟨"BTC", "A", SignalType.buy, 4 / 5, 100, 0, []⟩,
   ⟨"BTC", "B", SignalType.buy, 3 / 5, 100, 0, []⟩,
   ⟨"BTC", "C", SignalType.sell, 2 / 5, 100, 0, []⟩]

/-! ## DCAStrategy -/

/-- The mutable instance state of `DCAStrategy` together with its
constructor parameters (`interval_hours`, `volatility_threshold`;
`last_purchase` is initialised to `0`). -/
structure DCAState where
  interval_hours : ℚ
  volatility_threshold : ℚ
  last_purchase : ℚ
deriving DecidableEq, Repr

/-- One call of `DCAStrategy.generate_signal`.  `now` is `time.time()`.
`volatility` is the trailing volatility the source computes as
`statistics.stdev` of the returns of the last 24 closes (and `0` when fewer
than 24 candles are given); the standard deviation takes a square root, so
the computed value is passed in explicitly.  Returns the emitted signal and
the updated instance state. -/
def dca_generate_signal (st : DCAState) (now volatility : ℚ)
    (tickerSymbol : String) (tickerPrice : ℚ) : TradingSignal × DCAState :=
  if now - st.last_purchase < st.interval_hours * 3600 then
    ({ symbol := tickerSymbol
       strategy_name := "DCAStrategy"
       signal := SignalType.hold
       strength := 0
       price := tickerPrice
       timestamp := now
       metadata := [("reason", MetaVal.str "interval_not_reached")] }, st)
  else
    let strength :=
      if st.volatility_threshold < volatility then min (3 / 5 + volatility * 2) 1
      else 3 / 5
    ({ symbol := tickerSymbol
       strategy_name := "DCAStrategy"
       signal := SignalType.buy
       strength := strength
       price := tickerPrice
       timestamp := now
       metadata :=
         [("volatility", MetaVal.num volatility),
          ("volatility_adjustment",
           MetaVal.flag (decide (st.volatility_threshold < volatility)))] },
     { st with last_purchase := now })

/-! ## RiskGate (`BaseTradingStrategy.should_trade` in
`advanced_trading_strategies.py`) -/

/-- The per-strategy risk state consulted by `should_trade`:
`last_signal_time`, `min_signal_interval`, `current_position` and the
configured `max_position_size`. -/
structure RiskState where
  last_signal_time : ℚ
  min_signal_interval : ℚ
  current_position : ℚ
  max_position_size : ℚ
deriving DecidableEq, Repr

/-- `BaseTradingStrategy.should_trade`: signal-interval cooldown, position
limits and the 0.6 minimum-confidence floor, checked in source order.
`now` is `time.time()`. -/
def should_trade (st : RiskState) (now : ℚ) (signal : TradingSignal) : Bool :=
  if now - st.last_signal_time < st.min_signal_interval then false
  else if signal.signal = SignalType.buy ∧
      st.max_position_size ≤ st.current_position then false
  else if signal.signal = SignalType.sell ∧
      st.current_position ≤ -st.max_position_size then false
  else if signal.strength < 3 / 5 then false
  else true

/-! ## PositionBook (`EnhancedTradingEngine._update_position_from_order`) -/

/-- Order side (`OrderSide` enum in `exchange_api.py`). -/
inductive OrderSide
  | buy
  | sell
deriving DecidableEq, Repr

/-- The fields of the `Order` dataclass consulted by
`_update_position_from_order`.  `price` is `Optional[float]`. -/
structure Order where
  symbol : String
  side : OrderSide
  quantity : ℚ
  price : Option ℚ
deriving DecidableEq, Repr

/-- Python's `order.price or 0`: `None` (and `0.0`) become `0`. -/
def priceOrZero (p : Option ℚ) : ℚ :=
  p.getD 0

/-- The fields of the `TradingPosition` dataclass touched by
`_update_position_from_order` (`realized_pnl` defaults to `0.0`). -/
structure TradingPosition where
  symbol : String
  quantity : ℚ
  entry_price : ℚ
  current_price : ℚ
  unrealized_pnl : ℚ
  realized_pnl : ℚ
  strategy : String
deriving DecidableEq, Repr

/-- `EnhancedTradingEngine._update_position_from_order` restricted to the
one position keyed `f"{symbol}_default"`: `pos?` is the stored position
(`none` when the key is absent, in which case a fresh flat position is
created first), `order` the filled order; the result is the stored position
after the update. -/
def update_position_from_order (pos? : Option TradingPosition) (order : Order) :
    TradingPosition :=
  let position :=
    pos?.getD
      { symbol := order.symbol
        quantity := 0
        entry_price := 0
        current_price := priceOrZero order.price
        unrealized_pnl := 0
        realized_pnl := 0
        strategy := "combined" }
  let position :=
    match order.side with
    | OrderSide.buy =>
        let new_quantity := position.quantity + order.quantity
        let entry :=
          if position.quantity = 0 then priceOrZero order.price
          else if 0 < new_quantity then
            (position.quantity * position.entry_price +
              order.quantity * priceOrZero order.price) / new_quantity
          else 0
        { position with quantity := new_quantity, entry_price := entry }
    | OrderSide.sell =>
        let q := position.quantity - order.quantity
        let realized :=
          if priceOrZero order.price ≠ 0 ∧ position.entry_price ≠ 0 then
            position.realized_pnl +
              (priceOrZero order.price - position.entry_price) * order.quantity
          else position.realized_pnl
        if |q| < 1 / 10000 then
          { position with quantity := 0, entry_price := 0, realized_pnl := realized }
        else
          { position with quantity := q, realized_pnl := realized }
  { position with
    current_price := priceOrZero order.price
    unrealized_pnl := (priceOrZero order.price - position.entry_price) * position.quantity }

/-! ## TradingCycleOrchestrator (`EnhancedTradingEngine` start/stop) -/

/-- The `BotState` fields touched by `start_trading`/`stop_trading`. -/
structure BotStateRec where
  status : String
  is_running : Bool
deriving DecidableEq, Repr

/-- The `EnhancedTradingEngine` instance state touched by
`start_trading`/`stop_trading`: the engine flag, the start timestamp, the
DB-backed `bot.status` column, the real-time `bot_state`, the pending-order
map (as an association list `order_id ↦ order`) and the market-data
monitoring flag. -/
structure EngineState where
  is_running : Bool
  start_time : ℚ
  bot_status : String
  bot_state : BotStateRec
  pending_orders : List (String × Order)
  monitoring : Bool
deriving DecidableEq, Repr

/-- `EnhancedTradingEngine.stop_trading` as a state transformer.  The first
component is the engine state after the call; the second lists the log
lines emitted (the early return on a non-running engine logs nothing).
`cancelOk order_id` abstracts the exchange's answer to `_cancel_order`,
which removes the order from `pending_orders` exactly on success. -/
def stop_trading (cancelOk : String → Bool) (s : EngineState) :
    EngineState × List String :=
  if s.is_running = false then (s, [])
  else
    let s1 :=
      { s with
        is_running := false
        bot_state := { s.bot_state with is_running := false, status := "stopping" }
        monitoring := false }
    let s2 :=
      { s1 with
        pending_orders := s1.pending_orders.filter (fun o => !cancelOk o.1) }
    ({ s2 with
       bot_status := "stopped"
       bot_state := { s2.bot_state with status := "stopped" } },
     ["Stopping enhanced trading engine", "Enhanced trading engine stopped"])

/-- `EnhancedTradingEngine.start_trading` up to entering the per-tick
trading loop (the loop body is `_enhanced_trading_cycle`, a separate
operation): the guard on an already-running engine, then the field
assignments of lines 518-528.  The second component lists the log lines
emitted; on an already-running engine the call only logs the warning and
changes nothing. -/
def start_trading (now : ℚ) (s : EngineState) : EngineState × List String :=
  if s.is_running then (s, ["Trading engine is already running"])
  else
    ({ s with
       is_running := true
       start_time := now
       bot_state := { s.bot_state with is_running := true, status := "running" }
       bot_status := "running"
       monitoring := true },
     ["Starting enhanced trading engine"])

/-! ## Theorems -/

lemma buyWeight_c1Example : buyWeight c1ExampleSignals = 7 / 5 := by
  have h : buyWeight c1ExampleSignals = 4 / 5 + (3 / 5 + 0) := rfl
  rw [h]; norm_num

lemma sellWeight_c1Example : sellWeight c1ExampleSignals = 2 / 5 := by
  have h : sellWeight c1ExampleSignals = 2 / 5 + 0 := rfl
  rw [h]; norm_num

lemma c1Example_eval :
    ∃ o, get_combined_signal 0 c1ExampleSignals = some o ∧
      o.signal = SignalType.buy ∧ o.strength = 7 / 10 := by
  have hcond : sellWeight c1ExampleSignals < buyWeight c1ExampleSignals ∧
      1 / 2 < buyWeight c1ExampleSignals := by
    rw [buyWeight_c1Example, sellWeight_c1Example]
    constructor <;> norm_num
  have hg : get_combined_signal 0 c1ExampleSignals =
      if sellWeight c1ExampleSignals < buyWeight c1ExampleSignals ∧
          1 / 2 < buyWeight c1ExampleSignals then
        some (combinedBuySignal 0 ⟨"BTC", "A", SignalType.buy, 4 / 5, 100, 0, []⟩
          c1ExampleSignals)
      else if buyWeight c1ExampleSignals < sellWeight c1ExampleSignals ∧
          1 / 2 < sellWeight c1ExampleSignals then
        some (combinedSellSignal 0 ⟨"BTC", "A", SignalType.buy, 4 / 5, 100, 0, []⟩
          c1ExampleSignals)
      else none := rfl
  rw [if_pos hcond] at hg
  refine ⟨_, hg, rfl, ?_⟩
  show min (buyWeight c1ExampleSignals / (buySignals c1ExampleSignals).length) 1
      = 7 / 10
  have hlen : (buySignals c1ExampleSignals).length = 2 := rfl
  rw [buyWeight_c1Example, hlen]
  norm_num [min_def]

/-- C1: `get_combined_signal` on a non-empty signal list returns a BUY
consensus iff `buy_weight > sell_weight` and `buy_weight > 0.5`, with
strength `min(buy_weight / #BUY-signals, 1)`, symmetrically for SELL,
and `none` in every other case (including an exact tie); it never returns
both directions for one input, and on
`[BUY 0.8, BUY 0.6, SELL 0.4]` it returns BUY with strength 0.7. -/
theorem combined_signal_consensus (now : ℚ) (signals : List TradingSignal)
    (hne : signals ≠ []) :
    ((∃ o, get_combined_signal now signals = some o ∧
        o.signal = SignalType.buy) ↔
      sellWeight signals < buyWeight signals ∧ 1 / 2 < buyWeight signals) ∧
    ((∃ o, get_combined_signal now signals = some o ∧
        o.signal = SignalType.sell) ↔
      buyWeight signals < sellWeight signals ∧ 1 / 2 < sellWeight signals) ∧
    (∀ o, get_combined_signal now signals = some o →
      o.signal = SignalType.buy →
      o.strength = min (buyWeight signals / (buySignals signals).length) 1) ∧
    (∀ o, get_combined_signal now signals = some o →
      o.signal = SignalType.sell →
      o.strength = min (sellWeight signals / (sellSignals signals).length) 1) ∧
    (¬(sellWeight signals < buyWeight signals ∧ 1 / 2 < buyWeight signals) →
     ¬(buyWeight signals < sellWeight signals ∧ 1 / 2 < sellWeight signals) →
      get_combined_signal now signals = none) ∧
    ¬((∃ o, get_combined_signal now signals = some o ∧
        o.signal = SignalType.buy) ∧
      (∃ o, get_combined_signal now signals = some o ∧
        o.signal = SignalType.sell)) ∧
    (∃ o, get_combined_signal 0 c1ExampleSignals = some o ∧
      o.signal = SignalType.buy ∧ o.strength = 7 / 10) := by
  obtain ⟨s0, rest, rfl⟩ := List.exists_cons_of_ne_nil hne
  have hg : get_combined_signal now (s0 :: rest) =
      if sellWeight (s0 :: rest) < buyWeight (s0 :: rest) ∧
          1 / 2 < buyWeight (s0 :: rest) then
        some (combinedBuySignal now s0 (s0 :: rest))
      else if buyWeight (s0 :: rest) < sellWeight (s0 :: rest) ∧
          1 / 2 < sellWeight (s0 :: rest) then
        some (combinedSellSignal now s0 (s0 :: rest))
      else none := rfl
  by_cases h1 : sellWeight (s0 :: rest) < buyWeight (s0 :: rest) ∧
      1 / 2 < buyWeight (s0 :: rest)
  · rw [if_pos h1] at hg
    refine ⟨⟨fun _ => h1, fun _ => ⟨_, hg, rfl⟩⟩, ?_, ?_, ?_, ?_, ?_,
      c1Example_eval⟩
    · constructor
      · rintro ⟨o, ho, hsell⟩
        rw [hg] at ho
        obtain rfl := Option.some.inj ho
        simp [combinedBuySignal] at hsell
      · intro h2
        exact absurd h2.1 (lt_asymm h1.1)
    · intro o ho _
      rw [hg] at ho
      obtain rfl := Option.some.inj ho
      rfl
    · intro o ho hsell
      rw [hg] at ho
      obtain rfl := Option.some.inj ho
      simp [combinedBuySignal] at hsell
    · intro hcon _
      exact absurd h1 hcon
    · rintro ⟨-, o, ho, hsell⟩
      rw [hg] at ho
      obtain rfl := Option.some.inj ho
      simp [combinedBuySignal] at hsell
  · rw [if_neg h1] at hg
    by_cases h2 : buyWeight (s0 :: rest) < sellWeight (s0 :: rest) ∧
        1 / 2 < sellWeight (s0 :: rest)
    · rw [if_pos h2] at hg
      refine ⟨?_, ⟨fun _ => h2, fun _ => ⟨_, hg, rfl⟩⟩, ?_, ?_, ?_, ?_,
        c1Example_eval⟩
      · constructor
        · rintro ⟨o, ho, hbuy⟩
          rw [hg] at ho
          obtain rfl := Option.some.inj ho
          simp [combinedSellSignal] at hbuy
        · intro hb
          exact absurd hb.1 (lt_asymm h2.1)
      · intro o ho hbuy
        rw [hg] at ho
        obtain rfl := Option.some.inj ho
        simp [combinedSellSignal] at hbuy
      · intro o ho _
        rw [hg] at ho
        obtain rfl := Option.some.inj ho
        rfl
      · intro _ hcon
        exact absurd h2 hcon
      · rintro ⟨⟨o, ho, hbuy⟩, -⟩
        rw [hg] at ho
        obtain rfl := Option.some.inj ho
        simp [combinedSellSignal] at hbuy
    · rw [if_neg h2] at hg
      refine ⟨?_, ?_, ?_, ?_, fun _ _ => hg, ?_, c1Example_eval⟩
      · constructor
        · rintro ⟨o, ho, -⟩
          rw [hg] at ho
          simp at ho
        · intro hb
          exact absurd hb h1
      · constructor
        · rintro ⟨o, ho, -⟩
          rw [hg] at ho
          simp at ho
        · intro hs
          exact absurd hs h2
      · intro o ho _
        rw [hg] at ho
        simp at ho
      · intro o ho _
        rw [hg] at ho
        simp at ho
      · rintro ⟨⟨o, ho, -⟩, -⟩
        rw [hg] at ho
        simp at ho

/-- Witness for `combined_signal_consensus`: the spec's worked example
`[BUY 0.8, BUY 0.6, SELL 0.4]` produces a BUY consensus of strength 0.7. -/
theorem combined_signal_consensus_witness :
    ∃ o, get_combined_signal 0 c1ExampleSignals = some o ∧
      o.signal = SignalType.buy ∧ o.strength = 7 / 10 :=
  (combined_signal_consensus 0 c1ExampleSignals
    (List.cons_ne_nil _ _)).2.2.2.2.2.2

/-- C7: `should_trade` rejects every signal whose strength is below the 0.6
minimum-confidence floor, for every combination of the other inputs
(elapsed time, current position, position limit). -/
theorem weak_signal_always_rejected (st : RiskState) (now : ℚ)
    (signal : TradingSignal) (h : signal.strength < 3 / 5) :
    should_trade st now signal = false := by
  unfold should_trade
  split_ifs <;> rfl

/-- Witness for `weak_signal_always_rejected`: a strength-0.5 signal is
rejected even with no cooldown and no position. -/
theorem weak_signal_always_rejected_witness :
    should_trade ⟨0, 0, 0, 1000⟩ 100
      ⟨"BTC", "S", SignalType.buy, 1 / 2, 100, 0, []⟩ = false :=
  weak_signal_always_rejected ⟨0, 0, 0, 1000⟩ 100
    ⟨"BTC", "S", SignalType.buy, 1 / 2, 100, 0, []⟩ (by norm_num)

/-- C2: a same-direction BUY fill of quantity `d` at price `p` on an open
long position of quantity `q` and entry `e` yields quantity `q + d` and the
quantity-weighted entry price `(q*e + d*p)/(q + d)`; and on a flat book,
BUY 2 @ 10 followed by BUY 2 @ 20 yields quantity 4 and entry price 15. -/
theorem buy_fill_weighted_entry (pos : TradingPosition) (sym : String) (d p : ℚ)
    (hq : 0 < pos.quantity) (hd : 0 < d) :
    ((update_position_from_order (some pos)
        ⟨sym, OrderSide.buy, d, some p⟩).quantity = pos.quantity + d ∧
     (update_position_from_order (some pos)
        ⟨sym, OrderSide.buy, d, some p⟩).entry_price =
       (pos.quantity * pos.entry_price + d * p) / (pos.quantity + d)) ∧
    ((update_position_from_order
        (some (update_position_from_order none ⟨"BTC", OrderSide.buy, 2, some 10⟩))
        ⟨"BTC", OrderSide.buy, 2, some 20⟩).quantity = 4 ∧
     (update_position_from_order
        (some (update_position_from_order none ⟨"BTC", OrderSide.buy, 2, some 10⟩))
        ⟨"BTC", OrderSide.buy, 2, some 20⟩).entry_price = 15) := by
  have hqne : pos.quantity ≠ 0 := ne_of_gt hq
  have hpos : 0 < pos.quantity + d := by linarith
  refine ⟨⟨?_, ?_⟩, by norm_num [update_position_from_order, priceOrZero]⟩
  · simp [update_position_from_order, priceOrZero, hqne, hpos]
  · simp [update_position_from_order, priceOrZero, hqne, hpos]

/-- Witness for `buy_fill_weighted_entry`: long 2 @ 10, BUY 2 @ 20 gives
quantity 4 and entry price 15. -/
theorem buy_fill_weighted_entry_witness :
    (update_position_from_order
        (some ⟨"BTC", 2, 10, 10, 0, 0, "combined"⟩)
        ⟨"BTC", OrderSide.buy, 2, some 20⟩).quantity = 2 + 2 ∧
    (update_position_from_order
        (some ⟨"BTC", 2, 10, 10, 0, 0, "combined"⟩)
        ⟨"BTC", OrderSide.buy, 2, some 20⟩).entry_price = (2 * 10 + 2 * 20) / (2 + 2) :=
  (buy_fill_weighted_entry ⟨"BTC", 2, 10, 10, 0, 0, "combined"⟩ "BTC" 2 20
    (by norm_num) (by norm_num)).1

/-- C3 counterexample: long 10 @ entry 100, SELL 14 @ 110 (an over-close
whose excess is ≥ ε).  The code realizes `(110-100)×14 = 140` — the *full*
fill quantity, not `min(14,10)` — and keeps `entry_price = 100` instead of
resetting it to 0, refuting the claim at this input. -/
theorem sell_overclose_counterexample :
    (update_position_from_order (some ⟨"BTC", 10, 100, 100, 0, 0, "combined"⟩)
        ⟨"BTC", OrderSide.sell, 14, some 110⟩).realized_pnl = 140 ∧
    (update_position_from_order (some ⟨"BTC", 10, 100, 100, 0, 0, "combined"⟩)
        ⟨"BTC", OrderSide.sell, 14, some 110⟩).entry_price = 100 ∧
    ¬((update_position_from_order (some ⟨"BTC", 10, 100, 100, 0, 0, "combined"⟩)
          ⟨"BTC", OrderSide.sell, 14, some 110⟩).realized_pnl =
        (110 - 100) * min (14 : ℚ) 10 ∧
      (update_position_from_order (some ⟨"BTC", 10, 100, 100, 0, 0, "combined"⟩)
          ⟨"BTC", OrderSide.sell, 14, some 110⟩).entry_price = 0) := by
  norm_num [update_position_from_order, priceOrZero, min_def]

/-- C3 as amended: a SELL fill of quantity `d` at a non-zero price `p`
against an open long position with non-zero entry price adds
`(p − e) × d` (the full fill quantity, even when the fill over-closes) to
`realized_pnl`; the quantity becomes `q − d` and the entry price is kept,
except that when `|q − d| < ε = 1e-4` both are reset to 0.  In particular
long 10 @ 100, SELL 4 @ 110 yields quantity 6, realized P&L 40 and entry
price still 100. -/
theorem sell_fill_realizes_full_quantity (pos : TradingPosition) (sym : String)
    (d p : ℚ) (hq : 0 < pos.quantity) (he : pos.entry_price ≠ 0) (hp : p ≠ 0) :
    ((update_position_from_order (some pos)
        ⟨sym, OrderSide.sell, d, some p⟩).realized_pnl =
       pos.realized_pnl + (p - pos.entry_price) * d ∧
     (update_position_from_order (some pos)
        ⟨sym, OrderSide.sell, d, some p⟩).quantity =
       (if |pos.quantity - d| < 1 / 10000 then 0 else pos.quantity - d) ∧
     (update_position_from_order (some pos)
        ⟨sym, OrderSide.sell, d, some p⟩).entry_price =
       (if |pos.quantity - d| < 1 / 10000 then 0 else pos.entry_price)) ∧
    ((update_position_from_order (some ⟨"BTC", 10, 100, 100, 0, 0, "combined"⟩)
        ⟨"BTC", OrderSide.sell, 4, some 110⟩).quantity = 6 ∧
     (update_position_from_order (some ⟨"BTC", 10, 100, 100, 0, 0, "combined"⟩)
        ⟨"BTC", OrderSide.sell, 4, some 110⟩).realized_pnl = 40 ∧
     (update_position_from_order (some ⟨"BTC", 10, 100, 100, 0, 0, "combined"⟩)
        ⟨"BTC", OrderSide.sell, 4, some 110⟩).entry_price = 100) := by
  refine ⟨?_, by norm_num [update_position_from_order, priceOrZero]⟩
  simp [update_position_from_order, priceOrZero, he, hp]
  split_ifs <;> simp

/-- Witness for `sell_fill_realizes_full_quantity`: long 10 @ 100 entry,
SELL 4 @ 110. -/
theorem sell_fill_realizes_full_quantity_witness :
    (update_position_from_order (some ⟨"BTC", 10, 100, 100, 0, 0, "combined"⟩)
        ⟨"BTC", OrderSide.sell, 4, some 110⟩).realized_pnl = 0 + (110 - 100) * 4 ∧
    (update_position_from_order (some ⟨"BTC", 10, 100, 100, 0, 0, "combined"⟩)
        ⟨"BTC", OrderSide.sell, 4, some 110⟩).quantity =
      (if |(10 : ℚ) - 4| < 1 / 10000 then 0 else 10 - 4) ∧
    (update_position_from_order (some ⟨"BTC", 10, 100, 100, 0, 0, "combined"⟩)
        ⟨"BTC", OrderSide.sell, 4, some 110⟩).entry_price =
      (if |(10 : ℚ) - 4| < 1 / 10000 then 0 else 100) :=
  (sell_fill_realizes_full_quantity ⟨"BTC", 10, 100, 100, 0, 0, "combined"⟩ "BTC" 4 110
    (by norm_num) (by norm_num) (by norm_num)).1

/-- C10 counterexample: a SELL fill of quantity `0.00005 < ε` on a flat
book does *not* leave a negative (short) quantity — the epsilon reset zeroes
it out — refuting the universally quantified claim. -/
theorem flat_sell_tiny_quantity_counterexample :
    (update_position_from_order none
        ⟨"BTC", OrderSide.sell, 1 / 20000, some 100⟩).quantity = 0 ∧
    ¬((update_position_from_order none
        ⟨"BTC", OrderSide.sell, 1 / 20000, some 100⟩).quantity < 0) := by
  norm_num [update_position_from_order, priceOrZero, abs]

/-- C10 as amended: a SELL fill of quantity `d ≥ ε = 1e-4` on a flat book
creates a short position: quantity `-d < 0`, `entry_price` stays 0 (the
fill price is never recorded as the short's entry), `realized_pnl` is
untouched, and `unrealized_pnl` is `current_price × quantity` (not
`(current_price − fill_price) × quantity`). -/
theorem flat_sell_creates_short_without_entry (sym : String) (d : ℚ)
    (p : Option ℚ) (hd : 1 / 10000 ≤ d) :
    (update_position_from_order none ⟨sym, OrderSide.sell, d, p⟩).quantity = -d ∧
    (update_position_from_order none ⟨sym, OrderSide.sell, d, p⟩).quantity < 0 ∧
    (update_position_from_order none ⟨sym, OrderSide.sell, d, p⟩).entry_price = 0 ∧
    (update_position_from_order none ⟨sym, OrderSide.sell, d, p⟩).realized_pnl = 0 ∧
    (update_position_from_order none ⟨sym, OrderSide.sell, d, p⟩).current_price =
      priceOrZero p ∧
    (update_position_from_order none ⟨sym, OrderSide.sell, d, p⟩).unrealized_pnl =
      (update_position_from_order none ⟨sym, OrderSide.sell, d, p⟩).current_price *
        (update_position_from_order none ⟨sym, OrderSide.sell, d, p⟩).quantity := by
  have hd0 : 0 < d := lt_of_lt_of_le (by norm_num) hd
  have habs : ¬ d < 1 / 10000 := not_lt.mpr hd
  rw [one_div] at habs
  simp [update_position_from_order, priceOrZero, abs_of_pos hd0]
  split_ifs
  simp [hd0]

/-- Witness for `flat_sell_creates_short_without_entry`: SELL 1 @ 100 on a
flat book. -/
theorem flat_sell_creates_short_without_entry_witness :
    (update_position_from_order none ⟨"BTC", OrderSide.sell, 1, some 100⟩).quantity = -1 ∧
    (update_position_from_order none ⟨"BTC", OrderSide.sell, 1, some 100⟩).quantity < 0 ∧
    (update_position_from_order none ⟨"BTC", OrderSide.sell, 1, some 100⟩).entry_price = 0 ∧
    (update_position_from_order none ⟨"BTC", OrderSide.sell, 1, some 100⟩).realized_pnl = 0 ∧
    (update_position_from_order none ⟨"BTC", OrderSide.sell, 1, some 100⟩).current_price =
      priceOrZero (some 100) ∧
    (update_position_from_order none ⟨"BTC", OrderSide.sell, 1, some 100⟩).unrealized_pnl =
      (update_position_from_order none ⟨"BTC", OrderSide.sell, 1, some 100⟩).current_price *
        (update_position_from_order none ⟨"BTC", OrderSide.sell, 1, some 100⟩).quantity :=
  flat_sell_creates_short_without_entry "BTC" 1 (some 100) (by norm_num)

/-- C9: stop and start are idempotent — `stop_trading` on a non-running
engine returns at once with no state change and no log output, a second
consecutive stop never changes state, and `start_trading` on a running
engine is a no-op that only logs the already-running warning. -/
theorem stop_start_idempotent (cancelOk : String → Bool) (now : ℚ)
    (s : EngineState) :
    (s.is_running = false → stop_trading cancelOk s = (s, [])) ∧
    stop_trading cancelOk (stop_trading cancelOk s).1 =
      ((stop_trading cancelOk s).1, []) ∧
    (s.is_running = true →
      start_trading now s = (s, ["Trading engine is already running"])) := by
  refine ⟨fun h => by simp [stop_trading, h], ?_, fun h => by simp [start_trading, h]⟩
  by_cases h : s.is_running
  · have h1 : (stop_trading cancelOk s).1.is_running = false := by
      simp [stop_trading, h]
    set t := (stop_trading cancelOk s).1 with ht
    simp [stop_trading, h1]
  · have h0 : s.is_running = false := by simpa using h
    simp [stop_trading, h0]

/-- Witness for `stop_start_idempotent`: a stopped engine is unchanged by
`stop_trading`; a running engine is unchanged by `start_trading`. -/
theorem stop_start_idempotent_witness :
    stop_trading (fun _ => true)
      ⟨false, 0, "stopped", ⟨"stopped", false⟩, [], false⟩ =
      (⟨false, 0, "stopped", ⟨"stopped", false⟩, [], false⟩, []) ∧
    start_trading 0 ⟨true, 0, "running", ⟨"running", true⟩, [], true⟩ =
      (⟨true, 0, "running", ⟨"running", true⟩, [], true⟩,
       ["Trading engine is already running"]) :=
  ⟨(stop_start_idempotent (fun _ => true) 0
      ⟨false, 0, "stopped", ⟨"stopped", false⟩, [], false⟩).1 rfl,
   (stop_start_idempotent (fun _ => true) 0
      ⟨true, 0, "running", ⟨"running", true⟩, [], true⟩).2.2 rfl⟩

/-- C8: the DCA min-interval gate.  While less than
`interval_hours × 3600` seconds have elapsed since `last_purchase`, the
call returns HOLD with strength 0 and metadata reason
`interval_not_reached` and leaves the state untouched; once the interval
has elapsed it emits a BUY whose strength is
`min(0.6 + 2×volatility, 1)` when the trailing volatility exceeds the
threshold and `0.6` otherwise, recording the emission time — so a second
call within the interval of an emitted BUY always returns HOLD. -/
theorem dca_min_interval_gate (st : DCAState) (now nowLater vol volLater : ℚ)
    (sym symLater : String) (price priceLater : ℚ) :
    (now - st.last_purchase < st.interval_hours * 3600 →
      dca_generate_signal st now vol sym price =
        ({ symbol := sym
           strategy_name := "DCAStrategy"
           signal := SignalType.hold
           strength := 0
           price := price
           timestamp := now
           metadata := [("reason", MetaVal.str "interval_not_reached")] }, st)) ∧
    (st.interval_hours * 3600 ≤ now - st.last_purchase →
      (dca_generate_signal st now vol sym price).1.signal = SignalType.buy ∧
      (dca_generate_signal st now vol sym price).1.strength =
        (if st.volatility_threshold < vol then min (3 / 5 + vol * 2) 1 else 3 / 5) ∧
      (dca_generate_signal st now vol sym price).2 =
        { st with last_purchase := now }) ∧
    (st.interval_hours * 3600 ≤ now - st.last_purchase →
     nowLater - now < st.interval_hours * 3600 →
      (dca_generate_signal (dca_generate_signal st now vol sym price).2
          nowLater volLater symLater priceLater).1.signal = SignalType.hold ∧
      (dca_generate_signal (dca_generate_signal st now vol sym price).2
          nowLater volLater symLater priceLater).1.strength = 0) := by
  refine ⟨fun h => by simp [dca_generate_signal, h], fun h => ?_, fun h hlater => ?_⟩
  · have h' : ¬ now - st.last_purchase < st.interval_hours * 3600 := not_lt.mpr h
    refine ⟨by simp [dca_generate_signal, h'], by simp [dca_generate_signal, h'], ?_⟩
    simp [dca_generate_signal, h']
  · have h' : ¬ now - st.last_purchase < st.interval_hours * 3600 := not_lt.mpr h
    simp only [dca_generate_signal, if_neg h']
    simp [hlater]

/-- Witness for `dca_min_interval_gate`: with a 24-hour interval and
`last_purchase = 0`, a call at `t = 86400` fires a BUY and a follow-up call
one second later returns HOLD. -/
theorem dca_min_interval_gate_witness :
    (dca_generate_signal ⟨24, 1 / 20, 0⟩ 86400 0 "BTC" 100).1.signal =
      SignalType.buy ∧
    (dca_generate_signal (dca_generate_signal ⟨24, 1 / 20, 0⟩ 86400 0 "BTC" 100).2
        86401 0 "BTC" 100).1.signal = SignalType.hold := by
  have h := dca_min_interval_gate ⟨24, 1 / 20, 0⟩ 86400 86401 0 0 "BTC" "BTC" 100 100
  exact ⟨(h.2.1 (by norm_num)).1, (h.2.2 (by norm_num) (by norm_num)).1⟩

/-- C6: for every indicator of the library, an input shorter than the
indicator's required lookback yields the indicator's sentinel value and a
false `is_defined` flag (the functions are total, so no exception and no
NaN is produced): SMA returns `0`, EMA and Bollinger return the last price
(or `0` on an empty series), RSI returns `50`, MACD returns `(0,0,0)`. -/
theorem insufficient_data_sentinels (prices : List ℚ) (period fast slow sp : ℕ)
    (sd : ℚ) (sqrtFn : ℚ → ℚ) :
    (prices.length < period →
      calculate_sma prices period = 0 ∧
      indicatorDefined prices period = false) ∧
    (prices.length < period →
      calculate_ema prices period = prices.getLast?.getD 0 ∧
      indicatorDefined prices period = false) ∧
    (prices.length < period + 1 →
      calculate_rsi prices period = 50 ∧
      indicatorDefined prices (period + 1) = false) ∧
    (prices.length < period →
      calculate_bollinger_bands sqrtFn prices period sd =
        (prices.getLast?.getD 0, prices.getLast?.getD 0, prices.getLast?.getD 0) ∧
      indicatorDefined prices period = false) ∧
    (prices.length < slow →
      calculate_macd prices fast slow sp = (0, 0, 0) ∧
      indicatorDefined prices slow = false) := by
  refine ⟨fun h => ⟨?_, ?_⟩, fun h => ⟨?_, ?_⟩, fun h => ⟨?_, ?_⟩,
    fun h => ⟨?_, ?_⟩, fun h => ⟨?_, ?_⟩⟩ <;>
    simp [calculate_sma, calculate_ema, calculate_rsi, calculate_bollinger_bands,
      calculate_macd, indicatorDefined, h]

/-- Witness for `insufficient_data_sentinels`: the empty series is shorter
than every positive lookback. -/
theorem insufficient_data_sentinels_witness :
    calculate_sma [] 1 = 0 ∧ indicatorDefined [] 1 = false ∧
    calculate_ema [] 1 = ([] : List ℚ).getLast?.getD 0 ∧
    calculate_rsi [] 1 = 50 ∧
    calculate_bollinger_bands (fun v => v) [] 1 2 =
      (([] : List ℚ).getLast?.getD 0, ([] : List ℚ).getLast?.getD 0,
       ([] : List ℚ).getLast?.getD 0) ∧
    calculate_macd [] 12 26 9 = (0, 0, 0) := by
  have h := insufficient_data_sentinels [] 1 12 26 9 2 (fun v => v)
  exact ⟨(h.1 (by norm_num)).1, (h.1 (by norm_num)).2, (h.2.1 (by norm_num)).1,
    (h.2.2.1 (by norm_num)).1, (h.2.2.2.1 (by norm_num)).1,
    (h.2.2.2.2 (by norm_num)).1⟩

/-- C5 / MACD signal-line bug: on a constant price series (26 closes of
100) the code returns MACD line 0 but signal line 100 and histogram −100,
because `calculate_macd` computes the signal line as an EMA of the last 9
*raw prices* instead of an EMA of the MACD line — the EMA of the (identically
zero) MACD line of a constant series is 0, as the second conjunct shows. -/
theorem macd_signal_line_uses_raw_prices :
    calculate_macd (List.replicate 26 100) 12 26 9 = (0, 100, -100) ∧
    calculate_ema (List.replicate 9 0) 9 = 0 := by
  norm_num [calculate_macd, calculate_ema, lastN, List.replicate, priceChanges]

lemma mem_of_mem_lastN {x : ℚ} {n : ℕ} {l : List ℚ} (h : x ∈ lastN n l) :
    x ∈ l :=
  List.mem_of_mem_drop h

/-- C4: for every price series long enough for RSI to be defined
(`period ≥ 1` and `length ≥ period + 1`), `calculate_rsi` stays within
`[0, 100]`, and equals exactly `100` whenever every consecutive price
change is non-negative (a zero average loss maps to 100, not infinity). -/
theorem rsi_within_bounds (prices : List ℚ) (period : ℕ) (hper : 0 < period)
    (hlen : period + 1 ≤ prices.length) :
    0 ≤ calculate_rsi prices period ∧ calculate_rsi prices period ≤ 100 ∧
    ((∀ c ∈ priceChanges prices, 0 ≤ c) →
      calculate_rsi prices period = 100) := by
  have hguard : ¬ prices.length < period + 1 := not_lt.mpr hlen
  have hchlen : (priceChanges prices).length = prices.length - 1 := by
    rw [priceChanges, List.length_zipWith, List.length_tail]
    omega
  have hglen : ¬ ((priceChanges prices).map
      (fun c => if 0 < c then c else 0)).length < period := by
    rw [List.length_map, hchlen]
    omega
  unfold calculate_rsi
  rw [if_neg hguard, if_neg hglen]
  set ag := (lastN period ((priceChanges prices).map
      (fun c => if 0 < c then c else 0))).sum / (period : ℚ) with hag
  set al := (lastN period ((priceChanges prices).map
      (fun c => if 0 < c then 0 else |c|))).sum / (period : ℚ) with hal
  have hag0 : 0 ≤ ag := by
    rw [hag]
    refine div_nonneg (List.sum_nonneg ?_) (Nat.cast_nonneg period)
    intro x hx
    obtain ⟨c, -, rfl⟩ := List.mem_map.mp (mem_of_mem_lastN hx)
    split_ifs with h
    · exact le_of_lt h
    · exact le_refl 0
  have hal0 : 0 ≤ al := by
    rw [hal]
    refine div_nonneg (List.sum_nonneg ?_) (Nat.cast_nonneg period)
    intro x hx
    obtain ⟨c, -, rfl⟩ := List.mem_map.mp (mem_of_mem_lastN hx)
    split_ifs with h
    · exact le_refl 0
    · exact abs_nonneg c
  have hkey : (∀ c ∈ priceChanges prices, 0 ≤ c) → al = 0 := by
    intro hnn
    rw [hal]
    have hsum : (lastN period ((priceChanges prices).map
        (fun c => if 0 < c then 0 else |c|))).sum = 0 := by
      refine List.sum_eq_zero ?_
      intro x hx
      obtain ⟨c, hc, rfl⟩ := List.mem_map.mp (mem_of_mem_lastN hx)
      split_ifs with h
      · rfl
      · have h0 : c = 0 := le_antisymm (not_lt.mp h) (hnn c hc)
        rw [h0, abs_zero]
    rw [hsum, zero_div]
  by_cases h0 : al = 0
  · rw [if_pos h0]
    exact ⟨by norm_num, by norm_num, fun _ => rfl⟩
  · rw [if_neg h0]
    have halpos : 0 < al := lt_of_le_of_ne hal0 (Ne.symm h0)
    have hrs : 0 ≤ ag / al := div_nonneg hag0 hal0
    have hden : (1 : ℚ) ≤ 1 + ag / al := by linarith
    have hfrac_le : 100 / (1 + ag / al) ≤ 100 :=
      div_le_self (by norm_num) hden
    have hfrac_pos : 0 < 100 / (1 + ag / al) :=
      div_pos (by norm_num) (by linarith)
    exact ⟨by linarith, by linarith, fun hnn => absurd (hkey hnn) h0⟩

/-- Witness for `rsi_within_bounds`: the two-price series `[1, 2]` with
period 1 (all changes non-negative, so RSI is 100 and in bounds). -/
theorem rsi_within_bounds_witness :
    0 ≤ calculate_rsi [1, 2] 1 ∧ calculate_rsi [1, 2] 1 ≤ 100 ∧
    ((∀ c ∈ priceChanges [1, 2], 0 ≤ c) → calculate_rsi [1, 2] 1 = 100) :=
  rsi_within_bounds [1, 2] 1 (by norm_num) (by norm_num)

end SirHiss
